import Mathlib

/-!
Verification of the layout engine of the dashboard renderer (src/main.rs).

Shallow embedding conventions:
* Rust `u64` values are modelled as `Nat`; the wrapping `as i32` cast and
  `i32::saturating_sub` are modelled explicitly where the source uses them.
* Rust `i32` values are modelled as `Int`; plain `+` accumulation (the
  `cursor` variable, the `u64` fixed-sum accumulation) is modelled as exact
  arithmetic — a debug build of the source panics instead of wrapping on
  overflow, so exact arithmetic models every non-panicking execution.
* Rust `f64` values are modelled as `ℚ` (exact rational arithmetic); the
  `as i32` float-to-int cast is modelled as truncation toward zero with
  saturation at the i32 bounds, which is the Rust cast semantics.
* Strings are modelled as lists of characters.
-/

/-- Rust i32 range bound: 2^31. -/
def i32Bound : Int := 2147483648

/-- The wrapping `as i32` cast applied to a `u64` value (`fixed_sum as i32`,
`fs as i32` in `handle_container`): take the low 32 bits, interpret signed. -/
def u64_to_i32 (n : Nat) : Int :=
  let m := n % 4294967296
  if m < 2147483648 then (m : Int) else (m : Int) - 4294967296

/-- Rust `i32::saturating_sub`: the difference clamped to the i32 range
(it saturates at the i32 bounds, not at zero). -/
def saturating_sub_i32 (a b : Int) : Int :=
  max (-i32Bound) (min (i32Bound - 1) (a - b))

/-- Truncation toward zero of a rational, as Rust float-to-int casts do
before saturation (for a negative value this is the ceiling, written here
as the negated floor of the negation). -/
def rat_trunc (q : ℚ) : Int :=
  if q < 0 then -Int.floor (-q) else Int.floor q

/-- The Rust `as i32` cast from `f64`: truncate toward zero, saturating at
the i32 bounds (NaN cannot arise in the rational model). -/
def f64_to_i32 (q : ℚ) : Int :=
  max (-i32Bound) (min (i32Bound - 1) (rat_trunc q))

/-- `enum SplitDirection { Horizontal, Vertical }` (src/main.rs lines 176-181). -/
inductive SplitDirection : Type where
  | Horizontal : SplitDirection
  | Vertical : SplitDirection
deriving DecidableEq

/-- `enum Size { Px(u64), Unit(f64) }` (src/main.rs lines 188-192);
the `f64` payload is modelled as `ℚ`. -/
inductive Size : Type where
  | Px : Nat → Size
  | Unit : ℚ → Size
deriving DecidableEq

/-- `struct SizedNode { size: Size }` (src/main.rs lines 163-166). -/
structure SizedNode : Type where
  size : Size
deriving DecidableEq

mutual
/-- `enum LayoutNode` (src/main.rs lines 128-160): a container or one of the
nine leaf widget kinds, each carrying a `SizedNode`. -/
inductive LayoutNode : Type where
  | Container : ContainerNode → LayoutNode
  | Date : SizedNode → LayoutNode
  | Todo : SizedNode → LayoutNode
  | HLine : SizedNode → LayoutNode
  | VLine : SizedNode → LayoutNode
  | Weather : SizedNode → LayoutNode
  | Allowance : SizedNode → LayoutNode
  | Countdown : SizedNode → LayoutNode
  | Battery : SizedNode → LayoutNode
  | Verse : SizedNode → LayoutNode

/-- `struct ContainerNode { size: Size, split: SplitDirection, entries: Vec<LayoutNode> }`
(src/main.rs lines 169-174). -/
inductive ContainerNode : Type where
  | mk : Size → SplitDirection → List LayoutNode → ContainerNode
end

/-- Field accessor `container.size`. -/
def ContainerNode.size : ContainerNode → Size
  | .mk s _ _ => s

/-- Field accessor `container.split`. -/
def ContainerNode.split : ContainerNode → SplitDirection
  | .mk _ sp _ => sp

/-- Field accessor `container.entries`. -/
def ContainerNode.entries : ContainerNode → List LayoutNode
  | .mk _ _ es => es

/-- `LayoutNode::size` unified accessor (src/main.rs lines 233-249). -/
def LayoutNode.size : LayoutNode → Size
  | .Container c => c.size
  | .Date n => n.size
  | .Todo n => n.size
  | .HLine n => n.size
  | .VLine n => n.size
  | .Weather n => n.size
  | .Allowance n => n.size
  | .Countdown n => n.size
  | .Battery n => n.size
  | .Verse n => n.size

/-- `fn fixed_from(size: &Size) -> u64` (src/main.rs lines 252-257). -/
def fixed_from : Size → Nat
  | .Px v => v
  | .Unit _ => 0

/-- `fn scaled_from(size: &Size) -> f64` (src/main.rs lines 259-264). -/
def scaled_from : Size → ℚ
  | .Px _ => 0
  | .Unit v => v

/-- `split_dim_pix` selection in `handle_container` (src/main.rs lines 394-398):
width for Horizontal, height for Vertical. -/
def split_dim_pix (split : SplitDirection) (width height : Int) : Int :=
  match split with
  | .Horizontal => width
  | .Vertical => height

/-- Step 1 of `handle_container` (src/main.rs lines 400-404): sum of
`fixed_from` over the children, accumulated in a `u64`. -/
def fixed_sum (entries : List LayoutNode) : Nat :=
  (entries.map fun child => fixed_from child.size).sum

/-- Step 2 of `handle_container` (src/main.rs line 407):
`let leftover = split_dim_pix.saturating_sub(fixed_sum as i32)`. -/
def leftover_of (entries : List LayoutNode) (split : SplitDirection)
    (width height : Int) : Int :=
  saturating_sub_i32 (split_dim_pix split width height) (u64_to_i32 (fixed_sum entries))

/-- Step 3 of `handle_container` (src/main.rs lines 409-413): sum of
`scaled_from` over the children, accumulated in an `f64`. -/
def scale_sum (entries : List LayoutNode) : ℚ :=
  (entries.map fun child => scaled_from child.size).sum

/-- The per-child extent computation of step 4 of `handle_container`
(src/main.rs lines 423-435): a positive fixed size is used directly
(cast `fs as i32`); otherwise, with a non-positive scale sum the child
gets 0, and with a positive scale sum it gets
`((leftover as f64) * (ss / scale_sum)) as i32`. -/
def child_size (leftover : Int) (ssum : ℚ) (child : LayoutNode) : Int :=
  let fs := fixed_from child.size
  let ss := scaled_from child.size
  if 0 < fs then u64_to_i32 fs
  else if ssum ≤ 0 then 0
  else f64_to_i32 ((leftover : ℚ) * (ss / ssum))

/-- The `sizes` vector computed by the loop of step 4 of `handle_container`
(src/main.rs lines 416-439): each child's extent along the split axis. -/
def container_sizes (c : ContainerNode) (split : SplitDirection)
    (width height : Int) : List Int :=
  c.entries.map
    (child_size (leftover_of c.entries split width height) (scale_sum c.entries))

/-- The running `cursor` of the loop of step 4: the start offsets are the
prefix sums of the extents, starting from the given cursor value. -/
def starts_from (cursor : Int) : List Int → List Int
  | [] => []
  | s :: rest => cursor :: starts_from (cursor + s) rest

/-- The `starts` vector computed by the loop of step 4 of `handle_container`
(src/main.rs lines 416-439): `cursor` starts at 0 and is bumped by each
child's extent after the child's start is recorded. -/
def container_starts (c : ContainerNode) (split : SplitDirection)
    (width height : Int) : List Int :=
  starts_from 0 (container_sizes c split width height)

/-- Integer pixel rectangle handed to a child. -/
structure RectI : Type where
  x : Int
  y : Int
  width : Int
  height : Int
deriving DecidableEq

/-- The rectangle passed to `handle_child` by the dispatch loop of
`handle_container` (src/main.rs lines 442-454): Horizontal children get
`(x + sx, y, s, height)`, Vertical children get `(x, y + sx, width, s)`. -/
def child_rect (split : SplitDirection) (x y width height sx s : Int) : RectI :=
  match split with
  | .Horizontal => ⟨x + sx, y, s, height⟩
  | .Vertical => ⟨x, y + sx, width, s⟩

/-- The rectangles handed to the children of a container, in order. -/
def container_rects (c : ContainerNode) (split : SplitDirection)
    (x y width height : Int) : List RectI :=
  ((container_starts c split width height).zip (container_sizes c split width height)).map
    fun p => child_rect split x y width height p.1 p.2

/-- The widget kinds of the leaf variants of `LayoutNode`. -/
inductive WidgetKind : Type where
  | date | todo | hline | vline | weather | allowance | countdown | battery | verse
deriving DecidableEq

/-- Observable layout-engine events of a render pass: a container being
solved (with the rectangle it was given), a widget-rendering callback
invocation for a leaf (with the rectangle handed to it), and a logged
message.  Drawing side effects inside the widget renderers are external
collaborators and are not modelled. -/
inductive RenderEvent : Type where
  | solve : Int → Int → Int → Int → RenderEvent
  | widget : WidgetKind → Int → Int → Int → Int → RenderEvent
  | log : String → RenderEvent
deriving DecidableEq

mutual
/-- `fn handle_container` (src/main.rs lines 383-455) as an event trace: the
container is solved for the given rectangle, then each child in order is
dispatched on the rectangle built from its start offset and extent
(step 5, src/main.rs lines 441-454). -/
def handle_container (c : ContainerNode) (split : SplitDirection)
    (x y width height : Int) : List RenderEvent :=
  RenderEvent.solve x y width height ::
    dispatch_children split x y width height c.entries
      ((container_starts c split width height).zip (container_sizes c split width height))
termination_by sizeOf c
decreasing_by
  simp_wf
  rcases c with ⟨s, sp, es⟩
  simp [ContainerNode.entries]
  try omega

/-- The dispatch loop of step 5 of `handle_container` (src/main.rs lines
442-454), walking the children together with their (start, extent) slots. -/
def dispatch_children (split : SplitDirection) (x y width height : Int) :
    List LayoutNode → List (Int × Int) → List RenderEvent
  | [], _ => []
  | _ :: _, [] => []
  | child :: rest, slot :: srest =>
    (let r := child_rect split x y width height slot.1 slot.2
     handle_child child r.x r.y r.width r.height)
      ++ dispatch_children split x y width height rest srest
termination_by children _ => sizeOf children
decreasing_by all_goals (simp_wf; try omega)

/-- `fn handle_child` (src/main.rs lines 1377-1494) as an event trace: a
container child recurses into `handle_container` with its own split
direction and the unchanged rectangle; every leaf kind invokes its
widget-rendering routine on the rectangle. -/
def handle_child (node : LayoutNode) (x y width height : Int) : List RenderEvent :=
  match node with
  | .Container c => handle_container c c.split x y width height
  | .Date _ => [.widget .date x y width height]
  | .Todo _ => [.widget .todo x y width height]
  | .HLine _ => [.widget .hline x y width height]
  | .VLine _ => [.widget .vline x y width height]
  | .Weather _ => [.widget .weather x y width height]
  | .Allowance _ => [.widget .allowance x y width height]
  | .Countdown _ => [.widget .countdown x y width height]
  | .Battery _ => [.widget .battery x y width height]
  | .Verse _ => [.widget .verse x y width height]
termination_by sizeOf node
decreasing_by simp_wf; try omega
end

/-- The message printed by `main` when the document root is not a container
(src/main.rs line 1571). -/
def root_err_msg : String := "Root of layout.json must be a container node."

/-- Whether a `LayoutNode` is the `Container` variant. -/
def LayoutNode.isContainer : LayoutNode → Bool
  | .Container _ => true
  | _ => false

/-- The root dispatch of `main` (src/main.rs lines 1558-1572): a container
root is solved at origin (0, 0) with the canvas extents 1200 by 825; any
other root only logs the configuration error, and rendering continues on
the untouched (blank) canvas. -/
def render_root (root : LayoutNode) : List RenderEvent :=
  match root with
  | .Container c => handle_container c c.split 0 0 1200 825
  | _ => [.log root_err_msg]

/-- Rust `str::strip_suffix`: when the string ends with the suffix, the
string with the suffix removed, otherwise nothing. -/
def strip_suffix (s suf : List Char) : Option (List Char) :=
  if suf.length ≤ s.length ∧ s.drop (s.length - suf.length) = suf then
    some (s.take (s.length - suf.length))
  else none

/-- Rust `str::trim`: drop whitespace from both ends. -/
def trim (s : List Char) : List Char :=
  ((s.dropWhile Char.isWhitespace).reverse.dropWhile Char.isWhitespace).reverse

/-- Numeric value of a run of decimal digit characters. -/
def digits_val (ds : List Char) : Nat :=
  ds.foldl (fun a c => a * 10 + (c.toNat - 48)) 0

/-- Rust `u64::from_str` (used by `"...px".parse::<u64>()`): an optional
leading plus sign followed by at least one decimal digit, rejecting values
that overflow a `u64`.  Negative numbers are rejected (the minus sign is not
a digit). -/
def parse_u64 (s : List Char) : Option Nat :=
  let ds := match s with
    | '+' :: rest => rest
    | _ => s
  if ds.isEmpty then none
  else if ds.all Char.isDigit then
    if digits_val ds < 18446744073709551616 then some (digits_val ds) else none
  else none

/-- Exponent part of the `f64` grammar: an optional sign and at least one
digit, ending the string. -/
def parse_exp_part (mant : ℚ) (s : List Char) : Option ℚ :=
  let p : Bool × List Char := match s with
    | '-' :: r => (true, r)
    | '+' :: r => (false, r)
    | _ => (false, s)
  let ed := p.2.takeWhile Char.isDigit
  let rest := p.2.dropWhile Char.isDigit
  if ed.isEmpty then none
  else if rest.isEmpty then
    some (if p.1 then mant / 10 ^ digits_val ed else mant * 10 ^ digits_val ed)
  else none

/-- Mantissa-and-exponent tail of the `f64` grammar, given the sign, the
integral digits, the fractional digits and the remaining characters. -/
def parse_f64_tail (sgn : ℚ) (ip fp rest : List Char) : Option ℚ :=
  if ip.isEmpty ∧ fp.isEmpty then none
  else
    let mant : ℚ := (digits_val ip : ℚ) + (digits_val fp : ℚ) / 10 ^ fp.length
    match rest with
    | [] => some (sgn * mant)
    | 'e' :: er => parse_exp_part (sgn * mant) er
    | 'E' :: er => parse_exp_part (sgn * mant) er
    | _ => none

/-- Rust `f64::from_str` (used by `"...u".parse::<f64>()`), modelled on the
finite decimal fragment of its grammar: an optional sign, then digits with
an optional fractional part (at least one digit overall), then an optional
decimal exponent.  The value is returned as the exact rational; rounding to
the nearest double and the `inf`/`infinity`/`nan` literals are not
modelled.  Note the grammar accepts negative numbers. -/
def parse_f64 (s : List Char) : Option ℚ :=
  let sp : ℚ × List Char := match s with
    | '-' :: r => (-1, r)
    | '+' :: r => (1, r)
    | _ => (1, s)
  let ip := sp.2.takeWhile Char.isDigit
  let r1 := sp.2.dropWhile Char.isDigit
  match r1 with
  | '.' :: r => parse_f64_tail sp.1 ip (r.takeWhile Char.isDigit) (r.dropWhile Char.isDigit)
  | _ => parse_f64_tail sp.1 ip [] r1

/-- The error cases of `Size::deserialize` (src/main.rs lines 194-213): the
forwarded `u64` parse error, the forwarded `f64` parse error, and the
format error raised when neither suffix matches. -/
inductive SizeError : Type where
  | intParse : List Char → SizeError
  | floatParse : List Char → SizeError
  | format : List Char → SizeError
deriving DecidableEq

/-- The message of the format error of `Size::deserialize` (src/main.rs
lines 208-211), naming the offending string and the two accepted patterns. -/
def size_format_error_message (s : List Char) : String :=
  "Invalid size '" ++ String.mk s ++ "', expected like '10px' or '75u'"

/-- `Size::deserialize` (src/main.rs lines 194-213): try the `px` suffix
with a `u64` prefix, then the `u` suffix with an `f64` prefix, else the
format error carrying the offending string.  A matched suffix whose numeric
prefix fails to parse forwards that numeric parse error (the `?` operator)
and does not fall through to the format error. -/
def size_deserialize (s : List Char) : Except SizeError Size :=
  match strip_suffix s ['p', 'x'] with
  | some px =>
    match parse_u64 (trim px) with
    | some v => .ok (.Px v)
    | none => .error (.intParse (trim px))
  | none =>
    match strip_suffix s ['u'] with
    | some u =>
      match parse_f64 (trim u) with
      | some v => .ok (.Unit v)
      | none => .error (.floatParse (trim u))
    | none => .error (.format s)

/-- Example container for the C1 scenario: Horizontal split, children sized
Pixels 200, Units 1 and Units 3. -/
def exC1 : ContainerNode :=
  .mk (.Unit 1) .Horizontal
    [.Date ⟨.Px 200⟩, .Date ⟨.Unit 1⟩, .Date ⟨.Unit 3⟩]

/-- Example container whose Pixels sum (200) exceeds the span used with it
(100): one fixed child and one Units child. -/
def exC2 : ContainerNode :=
  .mk (.Unit 1) .Horizontal [.Date ⟨.Px 200⟩, .Date ⟨.Unit 1⟩]

/-- Example container with non-negative sizes whose fixed child (150)
overflows the span used with it (100). -/
def exC3 : ContainerNode :=
  .mk (.Unit 1) .Horizontal [.Date ⟨.Px 150⟩, .Date ⟨.Unit 2⟩]

/-- Example container with positive unit-sum (3) whose fixed child (201)
overflows the span used with it (100). -/
def exC4 : ContainerNode :=
  .mk (.Unit 1) .Horizontal [.Date ⟨.Px 201⟩, .Date ⟨.Unit 2⟩, .Date ⟨.Unit 1⟩]

/-- Example container whose only child is sized Pixels 0, so its unit-sum
is 0 while leftover stays positive. -/
def exC5 : ContainerNode :=
  .mk (.Unit 1) .Horizontal [.Date ⟨.Px 0⟩]

/-- Example container with two children used to witness the offset and
cross-axis facts. -/
def exC6 : ContainerNode :=
  .mk (.Unit 1) .Horizontal [.Date ⟨.Px 300⟩, .Date ⟨.Unit 1⟩]

/-- Example container holding a Pixels-0 child next to a Units child. -/
def exC10 : ContainerNode :=
  .mk (.Unit 1) .Horizontal [.Date ⟨.Px 0⟩, .Date ⟨.Unit 1⟩]

/-- C1: with span 1200 the solver computes extents [200, 250, 750] and
start offsets [0, 200, 450]. -/
theorem c1_scenario :
    container_sizes exC1 .Horizontal 1200 825 = [200, 250, 750] ∧
    container_starts exC1 .Horizontal 1200 825 = [0, 200, 450] := by
  constructor <;>
    norm_num [container_starts, container_sizes, starts_from, child_size,
      leftover_of, scale_sum, fixed_sum, split_dim_pix, u64_to_i32,
      saturating_sub_i32, i32Bound, f64_to_i32, rat_trunc, fixed_from,
      scaled_from, LayoutNode.size, ContainerNode.entries, exC1]

/-- The wrapping cast is the identity below 2^31. -/
theorem u64_to_i32_eq (n : Nat) (h : n < 2147483648) : u64_to_i32 n = n := by
  have h2 : n % 4294967296 = n := Nat.mod_eq_of_lt (by omega)
  unfold u64_to_i32
  simp only [h2]
  rw [if_pos h]

/-- Saturating subtraction is plain subtraction inside the i32 range. -/
theorem saturating_sub_i32_eq (a b : Int) (h1 : -i32Bound ≤ a - b)
    (h2 : a - b ≤ i32Bound - 1) : saturating_sub_i32 a b = a - b := by
  unfold saturating_sub_i32
  rw [min_eq_right h2, max_eq_right h1]

/-- Truncation of a non-negative rational is its floor. -/
theorem rat_trunc_of_nonneg (q : ℚ) (h : 0 ≤ q) : rat_trunc q = Int.floor q := by
  unfold rat_trunc
  rw [if_neg (not_lt.mpr h)]

/-- Truncation of a non-negative rational is non-negative. -/
theorem rat_trunc_nonneg (q : ℚ) (h : 0 ≤ q) : 0 ≤ rat_trunc q := by
  rw [rat_trunc_of_nonneg q h]
  exact Int.le_floor.mpr (by exact_mod_cast h)

/-- Truncation of a non-negative rational does not exceed the rational. -/
theorem rat_trunc_le (q : ℚ) (h : 0 ≤ q) : (rat_trunc q : ℚ) ≤ q := by
  rw [rat_trunc_of_nonneg q h]
  exact Int.floor_le q

/-- Truncation of a non-positive rational is non-positive. -/
theorem rat_trunc_nonpos (q : ℚ) (h : q ≤ 0) : rat_trunc q ≤ 0 := by
  unfold rat_trunc
  split
  · have h0 : (0 : ℚ) ≤ -q := by linarith
    have := Int.le_floor.mpr (show ((0 : Int) : ℚ) ≤ -q by exact_mod_cast h0)
    omega
  · have hq : q = 0 := le_antisymm h (not_lt.mp (by assumption))
    simp [hq]

/-- The float-to-i32 cast of a non-negative rational is non-negative. -/
theorem f64_to_i32_nonneg (q : ℚ) (h : 0 ≤ q) : 0 ≤ f64_to_i32 q := by
  unfold f64_to_i32
  have h1 : (0 : Int) ≤ min (i32Bound - 1) (rat_trunc q) :=
    le_min (by norm_num [i32Bound]) (rat_trunc_nonneg q h)
  exact le_trans h1 (le_max_right _ _)

/-- The float-to-i32 cast of a non-negative rational does not exceed it. -/
theorem f64_to_i32_le (q : ℚ) (h : 0 ≤ q) : (f64_to_i32 q : ℚ) ≤ q := by
  unfold f64_to_i32
  have h1 : (0 : Int) ≤ min (i32Bound - 1) (rat_trunc q) :=
    le_min (by norm_num [i32Bound]) (rat_trunc_nonneg q h)
  rw [max_eq_right (le_trans (by norm_num [i32Bound]) h1)]
  calc ((min (i32Bound - 1) (rat_trunc q) : Int) : ℚ)
      ≤ ((rat_trunc q : Int) : ℚ) := by exact_mod_cast min_le_right _ _
    _ ≤ q := rat_trunc_le q h

/-- The float-to-i32 cast of a non-positive rational is non-positive. -/
theorem f64_to_i32_nonpos (q : ℚ) (h : q ≤ 0) : f64_to_i32 q ≤ 0 := by
  unfold f64_to_i32
  exact max_le (by norm_num [i32Bound]) (le_trans (min_le_right _ _) (rat_trunc_nonpos q h))

/-- A fixed-sized child's extent is its own pixel count (cast to i32). -/
theorem child_size_of_fixed (leftover : Int) (ssum : ℚ) (child : LayoutNode)
    (h : 0 < fixed_from child.size) :
    child_size leftover ssum child = u64_to_i32 (fixed_from child.size) := by
  simp [child_size, h]

/-- A scaled child's extent is 0 when the scale sum is non-positive. -/
theorem child_size_of_scaled_zero_sum (leftover : Int) (ssum : ℚ) (child : LayoutNode)
    (h : fixed_from child.size = 0) (h2 : ssum ≤ 0) :
    child_size leftover ssum child = 0 := by
  simp [child_size, h, h2]

/-- A scaled child's extent with a positive scale sum is the cast of its
weighted share of the leftover. -/
theorem child_size_of_scaled (leftover : Int) (ssum : ℚ) (child : LayoutNode)
    (h : fixed_from child.size = 0) (h2 : 0 < ssum) :
    child_size leftover ssum child
      = f64_to_i32 ((leftover : ℚ) * (scaled_from child.size / ssum)) := by
  simp [child_size, h, not_le.mpr h2]

/-- Each child's fixed pixel count is bounded by the fixed sum. -/
theorem fixed_from_le_fixed_sum (entries : List LayoutNode) (child : LayoutNode)
    (h : child ∈ entries) : fixed_from child.size ≤ fixed_sum entries := by
  unfold fixed_sum
  exact List.single_le_sum (fun x _ => Nat.zero_le x) _
    (List.mem_map_of_mem _ h)

/-- Inside the i32 range the leftover is the exact difference between the
split-axis span and the fixed sum. -/
theorem leftover_eq (entries : List LayoutNode) (split : SplitDirection)
    (width height : Int)
    (hfs : fixed_sum entries < 2147483648)
    (h1 : -i32Bound ≤ split_dim_pix split width height - (fixed_sum entries : Int))
    (h2 : split_dim_pix split width height - (fixed_sum entries : Int) ≤ i32Bound - 1) :
    leftover_of entries split width height
      = split_dim_pix split width height - (fixed_sum entries : Int) := by
  unfold leftover_of
  rw [u64_to_i32_eq _ hfs, saturating_sub_i32_eq _ _ h1 h2]

/-- The start-offset list has one entry per extent. -/
theorem starts_from_length (cursor : Int) (l : List Int) :
    (starts_from cursor l).length = l.length := by
  induction l generalizing cursor with
  | nil => rfl
  | cons s rest ih => simp [starts_from, ih]

/-- The i-th start offset is the cursor plus the sum of the first i extents. -/
theorem starts_from_getD (l : List Int) : ∀ (cursor : Int) (i : Nat), i < l.length →
    (starts_from cursor l).getD i 0 = cursor + (l.take i).sum := by
  induction l with
  | nil => intro cursor i h; simp at h
  | cons s rest ih =>
    intro cursor i h
    cases i with
    | zero => simp [starts_from]
    | succ j =>
      have hj : j < rest.length := by simpa using h
      calc (starts_from cursor (s :: rest)).getD (j + 1) 0
          = (starts_from (cursor + s) rest).getD j 0 := by
            simp only [starts_from, List.getD_cons_succ]
        _ = (cursor + s) + (rest.take j).sum := ih (cursor + s) j hj
        _ = cursor + ((s :: rest).take (j + 1)).sum := by
            simp only [List.take_succ_cons, List.sum_cons]
            ring

/-- C6: each child's start offset along the split axis is the running sum of
the prior children's extents (the first child starts at 0), the rectangle
handed to a child keeps the container's own cross-axis origin and extent
unchanged, and a container child is dispatched by delegating to the solver
with that exact rectangle, so cross-axis values pass through unchanged
across recursion levels. -/
theorem c6_offsets_cross_axis (c : ContainerNode) (split : SplitDirection)
    (x y width height : Int) (i : Nat) (hi : i < c.entries.length) :
    (container_starts c split width height).getD i 0
      = ((container_sizes c split width height).take i).sum
    ∧ (∀ r ∈ container_rects c split x y width height,
        (split = .Horizontal → r.y = y ∧ r.height = height)
        ∧ (split = .Vertical → r.x = x ∧ r.width = width))
    ∧ (∀ cc : ContainerNode,
        handle_child (.Container cc) x y width height
          = handle_container cc cc.split x y width height) := by
  refine ⟨?_, ?_, ?_⟩
  · have hlen : i < (container_sizes c split width height).length := by
      simpa [container_sizes] using hi
    rw [container_starts, starts_from_getD _ 0 i hlen, zero_add]
  · intro r hr
    rw [container_rects] at hr
    obtain ⟨p, hp, rfl⟩ := List.mem_map.mp hr
    cases split <;> simp [child_rect]
  · intro cc
    simp [handle_child]

/-- C6 witness: concrete two-child container evaluated at index 1. -/
theorem c6_offsets_cross_axis_witness :
    1 < exC6.entries.length ∧
    (container_starts exC6 .Horizontal 400 50).getD 1 0
      = ((container_sizes exC6 .Horizontal 400 50).take 1).sum :=
  ⟨by decide, (c6_offsets_cross_axis exC6 .Horizontal 7 9 400 50 1 (by decide)).1⟩

/-- C9: a non-container document root only logs the configuration error;
the render trace holds no container-solve event and no widget-rendering
invocation, so rendering continues with the untouched blank canvas. -/
theorem c9_non_container_root (root : LayoutNode)
    (h : root.isContainer = false) :
    render_root root = [.log root_err_msg]
    ∧ (∀ e ∈ render_root root,
        (∀ a b w2 h2, e ≠ .solve a b w2 h2)
        ∧ (∀ k a b w2 h2, e ≠ .widget k a b w2 h2)) := by
  cases root
  case Container c => simp [LayoutNode.isContainer] at h
  all_goals
    refine ⟨rfl, ?_⟩
    intro e he
    simp only [render_root, List.mem_singleton] at he
    subst he
    constructor <;> intros <;> simp

/-- C9 witness: a Date leaf as root produces exactly the log event. -/
theorem c9_non_container_root_witness :
    (LayoutNode.Date ⟨.Px 5⟩).isContainer = false
    ∧ render_root (.Date ⟨.Px 5⟩) = [.log root_err_msg] :=
  ⟨rfl, (c9_non_container_root (.Date ⟨.Px 5⟩) rfl).1⟩

/-- C5: when the unit-sum is 0, every scaled child (fixed size 0) receives
extent 0 even with a strictly positive leftover: that pixel budget is
dropped, not redistributed (the extents are exactly the per-child
`child_size` values). -/
theorem c5_dropped_leftover (c : ContainerNode) (split : SplitDirection)
    (width height : Int)
    (hU : scale_sum c.entries = 0)
    (hL : 0 < leftover_of c.entries split width height)
    (child : LayoutNode) (hmem : child ∈ c.entries)
    (hfs : fixed_from child.size = 0) :
    child_size (leftover_of c.entries split width height) (scale_sum c.entries) child = 0
    ∧ container_sizes c split width height
        = c.entries.map
            (child_size (leftover_of c.entries split width height) (scale_sum c.entries)) :=
  ⟨child_size_of_scaled_zero_sum _ _ _ hfs (le_of_eq hU), rfl⟩

/-- C5 witness: a container whose only child is Pixels 0, span 100. -/
theorem c5_dropped_leftover_witness :
    scale_sum exC5.entries = 0
    ∧ 0 < leftover_of exC5.entries .Horizontal 100 50
    ∧ (.Date ⟨.Px 0⟩ : LayoutNode) ∈ exC5.entries
    ∧ fixed_from (LayoutNode.Date ⟨.Px 0⟩).size = 0
    ∧ child_size (leftover_of exC5.entries .Horizontal 100 50) (scale_sum exC5.entries)
        (.Date ⟨.Px 0⟩) = 0 := by
  have h1 : scale_sum exC5.entries = 0 := by
    norm_num [scale_sum, exC5, ContainerNode.entries, scaled_from, LayoutNode.size]
  have h2 : 0 < leftover_of exC5.entries .Horizontal 100 50 := by
    norm_num [leftover_of, exC5, ContainerNode.entries, fixed_sum, fixed_from,
      LayoutNode.size, split_dim_pix, u64_to_i32, saturating_sub_i32, i32Bound,
      min_def, max_def]
  have h3 : (.Date ⟨.Px 0⟩ : LayoutNode) ∈ exC5.entries := by
    simp [exC5, ContainerNode.entries]
  have h4 : fixed_from (LayoutNode.Date ⟨.Px 0⟩).size = 0 := rfl
  exact ⟨h1, h2, h3, h4, (c5_dropped_leftover exC5 .Horizontal 100 50 h1 h2 _ h3 h4).1⟩

/-- C10: with a strictly positive unit-sum, a Pixels-0 child is treated as
scaled with weight 0: its extent is 0 (never a share of the leftover) and
its contribution to the unit-sum is 0. -/
theorem c10_px_zero_scaled (c : ContainerNode) (split : SplitDirection)
    (width height : Int)
    (hU : 0 < scale_sum c.entries)
    (child : LayoutNode) (hmem : child ∈ c.entries)
    (hsz : child.size = Size.Px 0) :
    child_size (leftover_of c.entries split width height) (scale_sum c.entries) child = 0
    ∧ scaled_from child.size = 0 := by
  have hfs : fixed_from child.size = 0 := by rw [hsz]; rfl
  have hss : scaled_from child.size = 0 := by rw [hsz]; rfl
  refine ⟨?_, hss⟩
  rw [child_size_of_scaled _ _ _ hfs hU, hss]
  norm_num [f64_to_i32, rat_trunc, i32Bound, min_def, max_def]

/-- C10 witness: a Pixels-0 child next to a Units 1 sibling, span 100. -/
theorem c10_px_zero_scaled_witness :
    0 < scale_sum exC10.entries
    ∧ (.Date ⟨.Px 0⟩ : LayoutNode) ∈ exC10.entries
    ∧ (LayoutNode.Date ⟨.Px 0⟩).size = Size.Px 0
    ∧ child_size (leftover_of exC10.entries .Horizontal 100 50) (scale_sum exC10.entries)
        (.Date ⟨.Px 0⟩) = 0 := by
  have h1 : 0 < scale_sum exC10.entries := by
    norm_num [scale_sum, exC10, ContainerNode.entries, scaled_from, LayoutNode.size]
  have h2 : (.Date ⟨.Px 0⟩ : LayoutNode) ∈ exC10.entries := by
    simp [exC10, ContainerNode.entries]
  have h3 : (LayoutNode.Date ⟨.Px 0⟩).size = Size.Px 0 := rfl
  exact ⟨h1, h2, h3, (c10_px_zero_scaled exC10 .Horizontal 100 50 h1 _ h2 h3).1⟩

/-- The numeric value of the i32 bound. -/
theorem i32Bound_eq : i32Bound = 2147483648 := rfl

/-- C2 counterexample: with span 100 and children Pixels 200 and Units 1
the Pixels sum (200) exceeds the span, yet the computed leftover is -100
rather than 0 (i32 saturating subtraction does not clamp at zero) and the
Units child receives extent -100 rather than 0. -/
theorem c2_counterexample :
    split_dim_pix .Horizontal 100 50 < (fixed_sum exC2.entries : Int)
    ∧ leftover_of exC2.entries .Horizontal 100 50 = -100
    ∧ container_sizes exC2 .Horizontal 100 50 = [200, -100]
    ∧ ¬ leftover_of exC2.entries .Horizontal 100 50 = 0
    ∧ ¬ (container_sizes exC2 .Horizontal 100 50).getD 1 0 = 0 := by
  refine ⟨?_, ?_, ?_, ?_, ?_⟩ <;>
    norm_num [container_sizes, exC2, ContainerNode.entries, child_size,
      leftover_of, fixed_sum, scale_sum, fixed_from, scaled_from,
      LayoutNode.size, split_dim_pix, u64_to_i32, saturating_sub_i32,
      f64_to_i32, rat_trunc, i32Bound, min_def, max_def]

/-- C2 as amended: when the children's Pixels sizes sum to more than the
span (inside the i32 range), the leftover is the exact, negative difference
span minus fixed-sum — saturating subtraction only clamps at the i32
bounds, not at zero — and every scaled child (with non-negative weights)
receives a non-positive extent rather than extent 0. -/
theorem c2_amended_negative_leftover (c : ContainerNode) (split : SplitDirection)
    (width height : Int)
    (hspan0 : 0 ≤ split_dim_pix split width height)
    (hfs : (fixed_sum c.entries : Int) ≤ i32Bound - 1)
    (hover : split_dim_pix split width height < (fixed_sum c.entries : Int))
    (hw : ∀ child ∈ c.entries, 0 ≤ scaled_from child.size) :
    leftover_of c.entries split width height
      = split_dim_pix split width height - (fixed_sum c.entries : Int)
    ∧ leftover_of c.entries split width height < 0
    ∧ ∀ child ∈ c.entries, fixed_from child.size = 0 →
        child_size (leftover_of c.entries split width height) (scale_sum c.entries)
          child ≤ 0 := by
  have hfsnat : fixed_sum c.entries < 2147483648 := by
    rw [i32Bound_eq] at hfs
    omega
  have hid := leftover_eq c.entries split width height hfsnat
    (by rw [i32Bound_eq] at hfs ⊢; omega)
    (by rw [i32Bound_eq] at hfs ⊢; omega)
  have hL0 : leftover_of c.entries split width height < 0 := by
    rw [hid]; omega
  refine ⟨hid, hL0, ?_⟩
  intro child hmem hfs0
  by_cases hss : scale_sum c.entries ≤ 0
  · rw [child_size_of_scaled_zero_sum _ _ _ hfs0 hss]
  · have hU : 0 < scale_sum c.entries := not_le.mp hss
    rw [child_size_of_scaled _ _ _ hfs0 hU]
    apply f64_to_i32_nonpos
    have hx : (0 : ℚ) ≤ scaled_from child.size / scale_sum c.entries :=
      div_nonneg (hw child hmem) hU.le
    have hLq : ((leftover_of c.entries split width height : Int) : ℚ) ≤ 0 := by
      exact_mod_cast hL0.le
    calc ((leftover_of c.entries split width height : Int) : ℚ)
          * (scaled_from child.size / scale_sum c.entries)
        ≤ 0 * (scaled_from child.size / scale_sum c.entries) :=
          mul_le_mul_of_nonneg_right hLq hx
      _ = 0 := zero_mul _

/-- C2 amended witness: the overfull container at span 100. -/
theorem c2_amended_negative_leftover_witness :
    (0 : Int) ≤ split_dim_pix .Horizontal 100 50
    ∧ (fixed_sum exC2.entries : Int) ≤ i32Bound - 1
    ∧ split_dim_pix .Horizontal 100 50 < (fixed_sum exC2.entries : Int)
    ∧ leftover_of exC2.entries .Horizontal 100 50
        = split_dim_pix .Horizontal 100 50 - (fixed_sum exC2.entries : Int) := by
  have h1 : (0 : Int) ≤ split_dim_pix .Horizontal 100 50 := by
    norm_num [split_dim_pix]
  have h2 : (fixed_sum exC2.entries : Int) ≤ i32Bound - 1 := by
    norm_num [fixed_sum, exC2, ContainerNode.entries, fixed_from,
      LayoutNode.size, i32Bound]
  have h3 : split_dim_pix .Horizontal 100 50 < (fixed_sum exC2.entries : Int) := by
    norm_num [split_dim_pix, fixed_sum, exC2, ContainerNode.entries, fixed_from,
      LayoutNode.size]
  have h4 : ∀ child ∈ exC2.entries, 0 ≤ scaled_from child.size := by
    intro child hmem
    simp only [exC2, ContainerNode.entries, List.mem_cons,
      List.not_mem_nil, or_false] at hmem
    rcases hmem with h | h <;> subst h <;>
      norm_num [scaled_from, LayoutNode.size]
  exact ⟨h1, h2, h3,
    (c2_amended_negative_leftover exC2 .Horizontal 100 50 h1 h2 h3 h4).1⟩

/-- C3 counterexample: span 100 is non-negative and all child sizes are
non-negative (Pixels 150, Units 2), yet the Units child's computed extent
is -50, a negative extent. -/
theorem c3_counterexample :
    (0 : Int) ≤ split_dim_pix .Horizontal 100 50
    ∧ (∀ child ∈ exC3.entries, 0 ≤ scaled_from child.size)
    ∧ container_sizes exC3 .Horizontal 100 50 = [150, -50]
    ∧ ¬ (∀ s ∈ container_sizes exC3 .Horizontal 100 50, 0 ≤ s) := by
  have hs : container_sizes exC3 .Horizontal 100 50 = [150, -50] := by
    norm_num [container_sizes, exC3, ContainerNode.entries, child_size,
      leftover_of, fixed_sum, scale_sum, fixed_from, scaled_from,
      LayoutNode.size, split_dim_pix, u64_to_i32, saturating_sub_i32,
      f64_to_i32, rat_trunc, i32Bound, min_def, max_def]
  refine ⟨by norm_num [split_dim_pix], ?_, hs, ?_⟩
  · intro child hmem
    simp only [exC3, ContainerNode.entries, List.mem_cons,
      List.not_mem_nil, or_false] at hmem
    rcases hmem with h | h <;> subst h <;>
      norm_num [scaled_from, LayoutNode.size]
  · intro hall
    have := hall (-50) (by rw [hs]; simp)
    norm_num at this

/-- C3 as amended: with a non-negative span inside the i32 range,
non-negative sizes, and the additional proviso that the children's Pixels
sum does not exceed the span, no computed child extent is negative.
Without that proviso a Units child can receive a negative extent. -/
theorem c3_nonneg_extents (c : ContainerNode) (split : SplitDirection)
    (width height : Int)
    (hspan0 : 0 ≤ split_dim_pix split width height)
    (hspan1 : split_dim_pix split width height ≤ i32Bound - 1)
    (hfix : (fixed_sum c.entries : Int) ≤ split_dim_pix split width height)
    (hw : ∀ child ∈ c.entries, 0 ≤ scaled_from child.size) :
    ∀ s ∈ container_sizes c split width height, 0 ≤ s := by
  have hfsnat : fixed_sum c.entries < 2147483648 := by
    have h2 : (fixed_sum c.entries : Int) ≤ 2147483647 := by
      have := hfix.trans hspan1
      rw [i32Bound_eq] at this
      omega
    omega
  have hid := leftover_eq c.entries split width height hfsnat
    (by rw [i32Bound_eq]; omega)
    (by rw [i32Bound_eq] at hspan1 ⊢; omega)
  have hL0 : 0 ≤ leftover_of c.entries split width height := by
    rw [hid]; omega
  intro s hs
  rw [container_sizes] at hs
  obtain ⟨child, hmem, rfl⟩ := List.mem_map.mp hs
  by_cases hpos : 0 < fixed_from child.size
  · rw [child_size_of_fixed _ _ _ hpos,
      u64_to_i32_eq _ (lt_of_le_of_lt (fixed_from_le_fixed_sum _ _ hmem) hfsnat)]
    exact Int.natCast_nonneg _
  · have h0 : fixed_from child.size = 0 := by omega
    by_cases hss : scale_sum c.entries ≤ 0
    · rw [child_size_of_scaled_zero_sum _ _ _ h0 hss]
    · have hU : 0 < scale_sum c.entries := not_le.mp hss
      rw [child_size_of_scaled _ _ _ h0 hU]
      apply f64_to_i32_nonneg
      exact mul_nonneg (by exact_mod_cast hL0) (div_nonneg (hw child hmem) hU.le)

/-- C3 amended witness: the same container inside a span (300) that covers
its Pixels sum; every extent is non-negative. -/
theorem c3_nonneg_extents_witness :
    (0 : Int) ≤ split_dim_pix .Horizontal 300 50
    ∧ (fixed_sum exC3.entries : Int) ≤ split_dim_pix .Horizontal 300 50
    ∧ ∀ s ∈ container_sizes exC3 .Horizontal 300 50, 0 ≤ s := by
  have h1 : (0 : Int) ≤ split_dim_pix .Horizontal 300 50 := by
    norm_num [split_dim_pix]
  have h2 : split_dim_pix .Horizontal 300 50 ≤ i32Bound - 1 := by
    norm_num [split_dim_pix, i32Bound]
  have h3 : (fixed_sum exC3.entries : Int) ≤ split_dim_pix .Horizontal 300 50 := by
    norm_num [fixed_sum, exC3, ContainerNode.entries, fixed_from,
      LayoutNode.size, split_dim_pix]
  have h4 : ∀ child ∈ exC3.entries, 0 ≤ scaled_from child.size := by
    intro child hmem
    simp only [exC3, ContainerNode.entries, List.mem_cons,
      List.not_mem_nil, or_false] at hmem
    rcases hmem with h | h <;> subst h <;>
      norm_num [scaled_from, LayoutNode.size]
  exact ⟨h1, h3, c3_nonneg_extents exC3 .Horizontal 300 50 h1 h2 h3 h4⟩

/-- C4 counterexample: span 100, children Pixels 201, Units 2 and Units 1;
the unit-sum is 3 > 0 and scalable children exist, yet the extents are
[201, -67, -33] whose sum 101 exceeds the span 100 (the negative leftover
is truncated toward zero, so the fixed overflow is not fully compensated). -/
theorem c4_counterexample :
    0 < scale_sum exC4.entries
    ∧ container_sizes exC4 .Horizontal 100 50 = [201, -67, -33]
    ∧ split_dim_pix .Horizontal 100 50 < (container_sizes exC4 .Horizontal 100 50).sum := by
  have hs : container_sizes exC4 .Horizontal 100 50 = [201, -67, -33] := by
    norm_num [container_sizes, exC4, ContainerNode.entries, child_size,
      leftover_of, fixed_sum, scale_sum, fixed_from, scaled_from,
      LayoutNode.size, split_dim_pix, u64_to_i32, saturating_sub_i32,
      f64_to_i32, rat_trunc, i32Bound, min_def, max_def]
  refine ⟨?_, hs, ?_⟩
  · norm_num [scale_sum, exC4, ContainerNode.entries, scaled_from, LayoutNode.size]
  · rw [hs]
    norm_num [split_dim_pix]

/-- A child's extent, as a rational, is bounded by its fixed pixels plus its
weighted share of the leftover. -/
theorem child_size_le_share (L : Int) (U : ℚ) (child : LayoutNode)
    (hL : 0 ≤ L) (hU : 0 < U)
    (hfs : fixed_from child.size < 2147483648)
    (hss : 0 ≤ scaled_from child.size) :
    ((child_size L U child : Int) : ℚ)
      ≤ (fixed_from child.size : ℚ) + (L : ℚ) * scaled_from child.size / U := by
  by_cases h : 0 < fixed_from child.size
  · rw [child_size_of_fixed _ _ _ h, u64_to_i32_eq _ hfs]
    have hsh : (0 : ℚ) ≤ (L : ℚ) * scaled_from child.size / U :=
      div_nonneg (mul_nonneg (by exact_mod_cast hL) hss) hU.le
    push_cast
    linarith
  · have h0 : fixed_from child.size = 0 := by omega
    rw [child_size_of_scaled _ _ _ h0 hU, h0]
    have harg : (0 : ℚ) ≤ (L : ℚ) * (scaled_from child.size / U) :=
      mul_nonneg (by exact_mod_cast hL) (div_nonneg hss hU.le)
    have hle := f64_to_i32_le _ harg
    push_cast
    rw [mul_div_assoc]
    linarith

/-- Summed over a child list, the extents are bounded by the fixed sum plus
the leftover share of the summed weights. -/
theorem sizes_sum_share (L : Int) (U : ℚ) (hL : 0 ≤ L) (hU : 0 < U) :
    ∀ entries : List LayoutNode,
      (∀ child ∈ entries, fixed_from child.size < 2147483648) →
      (∀ child ∈ entries, 0 ≤ scaled_from child.size) →
      (((entries.map (child_size L U)).sum : Int) : ℚ)
        ≤ (fixed_sum entries : ℚ) + (L : ℚ) * scale_sum entries / U := by
  intro entries
  induction entries with
  | nil =>
    intro _ _
    simp [fixed_sum, scale_sum]
  | cons child rest ih =>
    intro hf hw
    have hbound := child_size_le_share L U child hL hU
      (hf child (List.mem_cons_self child rest))
      (hw child (List.mem_cons_self child rest))
    have hrest := ih (fun x hx => hf x (List.mem_cons_of_mem child hx))
      (fun x hx => hw x (List.mem_cons_of_mem child hx))
    have hfx : fixed_sum (child :: rest) = fixed_from child.size + fixed_sum rest := by
      simp [fixed_sum]
    have hsx : scale_sum (child :: rest) = scaled_from child.size + scale_sum rest := by
      simp [scale_sum]
    have expand : (L : ℚ) * (scaled_from child.size + scale_sum rest) / U
        = (L : ℚ) * scaled_from child.size / U + (L : ℚ) * scale_sum rest / U := by
      field_simp
      ring
    rw [List.map_cons, List.sum_cons, hfx, hsx, expand]
    push_cast
    push_cast at hbound hrest
    linarith

/-- C4 as amended: with the additional proviso that the children's Pixels
sum does not exceed the (non-negative, i32-ranged) span, a positive
unit-sum and non-negative weights, the sum of the computed child extents
never exceeds the container's split-axis span. -/
theorem c4_sum_le_span (c : ContainerNode) (split : SplitDirection)
    (width height : Int)
    (hspan0 : 0 ≤ split_dim_pix split width height)
    (hspan1 : split_dim_pix split width height ≤ i32Bound - 1)
    (hU : 0 < scale_sum c.entries)
    (hfix : (fixed_sum c.entries : Int) ≤ split_dim_pix split width height)
    (hw : ∀ child ∈ c.entries, 0 ≤ scaled_from child.size) :
    (container_sizes c split width height).sum ≤ split_dim_pix split width height := by
  have hfsnat : fixed_sum c.entries < 2147483648 := by
    have h2 : (fixed_sum c.entries : Int) ≤ 2147483647 := by
      have := hfix.trans hspan1
      rw [i32Bound_eq] at this
      omega
    omega
  have hid := leftover_eq c.entries split width height hfsnat
    (by rw [i32Bound_eq]; omega)
    (by rw [i32Bound_eq] at hspan1 ⊢; omega)
  have hL0 : 0 ≤ leftover_of c.entries split width height := by
    rw [hid]; omega
  have hf_all : ∀ child ∈ c.entries, fixed_from child.size < 2147483648 :=
    fun child hmem => lt_of_le_of_lt (fixed_from_le_fixed_sum _ _ hmem) hfsnat
  have key := sizes_sum_share (leftover_of c.entries split width height)
    (scale_sum c.entries) hL0 hU c.entries hf_all hw
  have hdiv : (leftover_of c.entries split width height : ℚ) * scale_sum c.entries
      / scale_sum c.entries = (leftover_of c.entries split width height : ℚ) := by
    rw [mul_div_assoc, div_self (ne_of_gt hU), mul_one]
  rw [hdiv] at key
  have hfinal : (((container_sizes c split width height).sum : Int) : ℚ)
      ≤ ((split_dim_pix split width height : Int) : ℚ) := by
    calc (((container_sizes c split width height).sum : Int) : ℚ)
        ≤ (fixed_sum c.entries : ℚ)
            + (leftover_of c.entries split width height : ℚ) := key
      _ = ((split_dim_pix split width height : Int) : ℚ) := by
          rw [hid]
          push_cast
          ring
  exact_mod_cast hfinal

/-- C4 amended witness: the C1 container at span 1200, where the extents
sum to 1200 at most. -/
theorem c4_sum_le_span_witness :
    0 < scale_sum exC1.entries
    ∧ (fixed_sum exC1.entries : Int) ≤ split_dim_pix .Horizontal 1200 825
    ∧ (container_sizes exC1 .Horizontal 1200 825).sum
        ≤ split_dim_pix .Horizontal 1200 825 := by
  have h0 : (0 : Int) ≤ split_dim_pix .Horizontal 1200 825 := by
    norm_num [split_dim_pix]
  have h1 : split_dim_pix .Horizontal 1200 825 ≤ i32Bound - 1 := by
    norm_num [split_dim_pix, i32Bound]
  have h2 : 0 < scale_sum exC1.entries := by
    norm_num [scale_sum, exC1, ContainerNode.entries, scaled_from, LayoutNode.size]
  have h3 : (fixed_sum exC1.entries : Int) ≤ split_dim_pix .Horizontal 1200 825 := by
    norm_num [fixed_sum, exC1, ContainerNode.entries, fixed_from,
      LayoutNode.size, split_dim_pix]
  have h4 : ∀ child ∈ exC1.entries, 0 ≤ scaled_from child.size := by
    intro child hmem
    simp only [exC1, ContainerNode.entries, List.mem_cons,
      List.not_mem_nil, or_false] at hmem
    rcases hmem with h | h | h <;> subst h <;>
      norm_num [scaled_from, LayoutNode.size]
  exact ⟨h2, h3, c4_sum_le_span exC1 .Horizontal 1200 825 h0 h1 h2 h3 h4⟩

/-- `Size::deserialize` on a string with the `px` suffix forwards the `u64`
parse of the trimmed prefix. -/
theorem size_deserialize_px_case (s px : List Char)
    (hpx : strip_suffix s ['p', 'x'] = some px) :
    size_deserialize s
      = match parse_u64 (trim px) with
        | some v => Except.ok (Size.Px v)
        | none => Except.error (SizeError.intParse (trim px)) := by
  unfold size_deserialize
  rw [hpx]

/-- `Size::deserialize` on a string without the `px` suffix but with the `u`
suffix forwards the `f64` parse of the trimmed prefix. -/
theorem size_deserialize_u_case (s u : List Char)
    (hpx : strip_suffix s ['p', 'x'] = none)
    (hu : strip_suffix s ['u'] = some u) :
    size_deserialize s
      = match parse_f64 (trim u) with
        | some v => Except.ok (Size.Unit v)
        | none => Except.error (SizeError.floatParse (trim u)) := by
  unfold size_deserialize
  rw [hpx, hu]

/-- `Size::deserialize` on a string with neither suffix yields the format
error naming the offending string. -/
theorem size_deserialize_format_case (s : List Char)
    (hpx : strip_suffix s ['p', 'x'] = none)
    (hu : strip_suffix s ['u'] = none) :
    size_deserialize s = .error (.format s) := by
  unfold size_deserialize
  rw [hpx, hu]

/-- C7 counterexample: the string "-3u" parses successfully to Units -3;
negative values are accepted by the `u` rule, refuting the claim that they
never are. -/
theorem c7_counterexample :
    size_deserialize ['-', '3', 'u'] = .ok (.Unit (-3)) ∧ (-3 : ℚ) < 0 := by
  refine ⟨?_, by norm_num⟩
  have hf : parse_f64 (trim ['-', '3']) = some (-3) := by
    rw [show trim ['-', '3'] = ['-', '3'] from rfl]
    rw [show parse_f64 ['-', '3'] = parse_f64_tail (-1) ['3'] [] [] from rfl]
    rw [show parse_f64_tail (-1) ['3'] [] []
      = some ((-1 : ℚ) * ((digits_val ['3'] : ℚ)
          + (digits_val [] : ℚ) / 10 ^ ([] : List Char).length)) from rfl]
    norm_num [digits_val, show '3'.toNat = 51 from rfl]
  rw [size_deserialize_u_case ['-', '3', 'u'] ['-', '3'] rfl rfl, hf]

/-- C7 as amended: parsing succeeds with a Units variant only if the string
ends with the `u` suffix and the remaining trimmed prefix parses under the
`f64` grammar — which accepts negative values rather than rejecting them;
a string with neither the `px` nor the `u` suffix fails with the
FormatError carrying the offending string (whose message names the two
accepted patterns), while a string with the `px` suffix whose prefix fails
the integer parse yields that forwarded parse error instead of the
FormatError. -/
theorem c7_amended_parse_rules (s : List Char) :
    (∀ v : ℚ, size_deserialize s = .ok (.Unit v) →
        ∃ u, strip_suffix s ['u'] = some u ∧ parse_f64 (trim u) = some v)
    ∧ (strip_suffix s ['p', 'x'] = none → strip_suffix s ['u'] = none →
        size_deserialize s = .error (.format s))
    ∧ (∀ px, strip_suffix s ['p', 'x'] = some px → parse_u64 (trim px) = none →
        size_deserialize s = .error (.intParse (trim px))) := by
  refine ⟨?_, ?_, ?_⟩
  · intro v hv
    cases hpx : strip_suffix s ['p', 'x'] with
    | some px =>
      rw [size_deserialize_px_case s px hpx] at hv
      cases hpu : parse_u64 (trim px) with
      | some w => rw [hpu] at hv; simp at hv
      | none => rw [hpu] at hv; simp at hv
    | none =>
      cases hu : strip_suffix s ['u'] with
      | some u =>
        rw [size_deserialize_u_case s u hpx hu] at hv
        cases hf : parse_f64 (trim u) with
        | some w =>
          rw [hf] at hv
          simp only [Except.ok.injEq, Size.Unit.injEq] at hv
          subst hv
          exact ⟨u, rfl, hf⟩
        | none => rw [hf] at hv; simp at hv
      | none =>
        rw [size_deserialize_format_case s hpx hu] at hv
        simp at hv
  · intro hpx hu
    exact size_deserialize_format_case s hpx hu
  · intro px hpx hpu
    rw [size_deserialize_px_case s px hpx, hpu]

/-- C7 amended witness: "ab" has neither suffix and fails with the format
error on the offending string. -/
theorem c7_amended_parse_rules_witness :
    strip_suffix ['a', 'b'] ['p', 'x'] = none
    ∧ strip_suffix ['a', 'b'] ['u'] = none
    ∧ size_deserialize ['a', 'b'] = .error (.format ['a', 'b']) :=
  ⟨rfl, rfl, (c7_amended_parse_rules ['a', 'b']).2.1 rfl rfl⟩

/-- C8: "42px" parses to Pixels 42 (the carried numeric value is exactly
42) and "12.5u" parses to Units 12.5 (= 25/2). -/
theorem c8_roundtrip :
    size_deserialize ['4', '2', 'p', 'x'] = .ok (.Px 42)
    ∧ size_deserialize ['1', '2', '.', '5', 'u'] = .ok (.Unit (25 / 2)) := by
  constructor
  · rfl
  · have hf : parse_f64 (trim ['1', '2', '.', '5']) = some (25 / 2) := by
      rw [show trim ['1', '2', '.', '5'] = ['1', '2', '.', '5'] from rfl]
      rw [show parse_f64 ['1', '2', '.', '5']
        = parse_f64_tail 1 ['1', '2'] ['5'] [] from rfl]
      rw [show parse_f64_tail 1 ['1', '2'] ['5'] []
        = some ((1 : ℚ) * ((digits_val ['1', '2'] : ℚ)
            + (digits_val ['5'] : ℚ) / 10 ^ (['5'] : List Char).length)) from rfl]
      norm_num [digits_val, show '1'.toNat = 49 from rfl,
        show '2'.toNat = 50 from rfl, show '5'.toNat = 53 from rfl]
    rw [size_deserialize_u_case ['1', '2', '.', '5', 'u'] ['1', '2', '.', '5'] rfl rfl, hf]
